import Mathlib

/-!
Verification of the source-geometry discretization engine of
`casingSimulations/sources.py`.

The embedding models mesh face grids as total functions `ℕ → Point3`
together with explicit face counts (`nFx`, `nFy`, `nFz`), exactly as numpy
arrays of 3-D points; coordinates and cell widths are rationals.  Each
source variant's segment masks, signed assignments and the assembled,
area-normalized current-density vector `s_e` are transcribed directly from
the corresponding Python properties.
-/

/-- A 3-D point (a row of a face-center coordinate grid). -/
structure Point3 where
  x : ℚ
  y : ℚ
  z : ℚ
deriving DecidableEq

/-- The mesh data consumed by the sources: face-center coordinate grids for
the x-, y- and z-faces (`mesh.gridFx`, `mesh.gridFy`, `mesh.gridFz`), face
counts (`mesh.vnF`), minimum cell widths per axis (`mesh.hx.min()` etc.),
the concatenated face-area vector (`mesh.area`, indexed over all
`nFx + nFy + nFz` faces in x, y, z order) and the symmetry flag
(`mesh.isSymmetric`). -/
structure Mesh where
  nFx : ℕ
  nFy : ℕ
  nFz : ℕ
  gridFx : ℕ → Point3
  gridFy : ℕ → Point3
  gridFz : ℕ → Point3
  hx_min : ℚ
  hy_min : ℚ
  hz_min : ℚ
  area : ℕ → ℚ
  isSymmetric : Bool

/-- The casing geometry consumed by the sources: electrode endpoints
`src_a`, `src_b` and the casing radius `casing_a` (fields of the `cp`
casing-properties object). -/
structure CasingGeometry where
  src_a : Point3
  src_b : Point3
  casing_a : ℚ

/-- Total number of faces: the length of the assembled `s_e` vector. -/
def numF (m : Mesh) : ℕ := m.nFx + m.nFy + m.nFz

/-- Squared Euclidean distance between two points, as summed by
`discretize.utils.closestPoints`. -/
def sqDist (p q : Point3) : ℚ :=
  (p.x - q.x) ^ 2 + (p.y - q.y) ^ 2 + (p.z - q.z) ^ 2

/-- Index of the first grid row at minimal squared distance from `p`
(`closestPoints`: `((pt - grid)**2).sum(axis=1).argmin()`; numpy argmin
returns the first occurrence of the minimum). -/
def closestIdx (n : ℕ) (grid : ℕ → Point3) (p : Point3) : ℕ :=
  (List.range n).foldl
    (fun best i => if sqDist (grid i) p < sqDist (grid best) p then i else best) 0

/-- Masked assignment `arr[mask] = v` on a face array. -/
def assign (arr : ℕ → ℚ) (mask : ℕ → Bool) (v : ℚ) : ℕ → ℚ :=
  fun i => if mask i then v else arr i

/-- A fresh zero face array (`np.zeros(...)`). -/
def zerosF : ℕ → ℚ := fun _ => 0

/-- Concatenation `np.hstack([s_x, s_y, s_z])` of the three face arrays,
given the lengths of the first two blocks. -/
def hstack3 (nx ny : ℕ) (sx sy sz : ℕ → ℚ) : ℕ → ℚ := fun i =>
  if i < nx then sx i
  else if i < nx + ny then sy (i - nx)
  else sz (i - nx - ny)

/-- Exceptions raised by the Python constructors. -/
inductive PyExc where
  | nameError : String → PyExc
  | assertionError : String → PyExc
deriving DecidableEq

/-- Names bound at module level in `sources.py` (its imports and class
statements).  The bare name `cp` is not among them. -/
def sourcesModuleGlobals : List String :=
  ["np", "plt", "os", "properties", "discretize", "closestPoints",
   "Utils", "FDEM", "TDEM", "LoadableInstance", "BaseCasing", "model",
   "BaseMeshGenerator", "__version__", "BaseCasingSrc",
   "HorizontalElectricDipole", "VerticalElectricDipole",
   "DownHoleTerminatingSrc", "DownHoleCasingSrc", "TopCasingSrc"]

/-- Constructor of `BaseCasingSrc`: asserts `src_a[1] == src_b[1]`. -/
def BaseCasingSrc.init (g : CasingGeometry) : Except PyExc CasingGeometry :=
  if g.src_a.y = g.src_b.y then Except.ok g
  else Except.error
    (PyExc.assertionError "non y-axis aligned sources have not been implemented")

/-- Constructor of `VerticalElectricDipole`.  Its first statement is
`assert all(cp.src_a[:2] == cp.src_b[:2])`, evaluated before
`super().__init__` runs: the bare name `cp` is resolved against the
function's locals (there are none) and then the module globals; only if
that lookup succeeded would the horizontal-alignment assertion itself be
evaluated, followed by the base-class constructor. -/
def VerticalElectricDipole.init (g : CasingGeometry) : Except PyExc CasingGeometry :=
  if sourcesModuleGlobals.contains "cp" then
    if g.src_a.x = g.src_b.x ∧ g.src_a.y = g.src_b.y then
      BaseCasingSrc.init g
    else
      Except.error (PyExc.assertionError
        "src_a and src_b must have the same horizontal location")
  else
    Except.error (PyExc.nameError "cp")

/-- Surface-wire direction of `HorizontalElectricDipole`
(`-1. if self.src_a[0] < self.src_b[0] else 1.`). -/
def HorizontalElectricDipole.surface_wire_direction (g : CasingGeometry) : ℚ :=
  if g.src_a.x < g.src_b.x then -1 else 1

/-- Surface-wire direction of `DownHoleTerminatingSrc`
(`-1. if self.src_a[0] < self.src_b[0] else 1.`). -/
def DownHoleTerminatingSrc.surface_wire_direction (g : CasingGeometry) : ℚ :=
  if g.src_a.x < g.src_b.x then -1 else 1

/-- Mask (over x-faces) of the surface wire of `HorizontalElectricDipole`:
x between the endpoint x-coordinates inclusive, z within half a minimum
z-cell width of `src_b.z`, and, on non-symmetric meshes, y within half a
minimum y-cell width of `src_b.y`. -/
def HorizontalElectricDipole.surface_wire
    (m : Mesh) (g : CasingGeometry) (j : ℕ) : Bool :=
  let p := m.gridFx j
  (decide (p.x ≤ max g.src_a.x g.src_b.x) &&
   decide (min g.src_a.x g.src_b.x ≤ p.x)) &&
  (decide (g.src_b.z - m.hz_min / 2 < p.z) &&
   decide (p.z < g.src_b.z + m.hz_min / 2)) &&
  (m.isSymmetric ||
   (decide (g.src_b.y - m.hy_min / 2 < p.y) &&
    decide (p.y < g.src_b.y + m.hy_min / 2)))

/-- The x-face array of `HorizontalElectricDipole.s_e`
(`s_x[self.surface_wire] = self.surface_wire_direction`). -/
def HorizontalElectricDipole.s_x (m : Mesh) (g : CasingGeometry) : ℕ → ℚ :=
  assign zerosF (HorizontalElectricDipole.surface_wire m g)
    (HorizontalElectricDipole.surface_wire_direction g)

/-- Assembled current-density vector of `HorizontalElectricDipole`
(`np.hstack([s_x, s_y, s_z]) / self.mesh.area`). -/
def HorizontalElectricDipole.s_e (m : Mesh) (g : CasingGeometry) : ℕ → ℚ :=
  fun i => hstack3 m.nFx m.nFy
    (HorizontalElectricDipole.s_x m g) zerosF zerosF i / m.area i

/-- Signed unit currents written by `HorizontalElectricDipole.s_e`, one per
segment, in assignment order. -/
def HorizontalElectricDipole.segmentSigns (g : CasingGeometry) : List ℚ :=
  [HorizontalElectricDipole.surface_wire_direction g]

/-- Closest z-face to `src_a` (`VerticalElectricDipole.src_a_closest`). -/
def VerticalElectricDipole.src_a_closest (m : Mesh) (g : CasingGeometry) : Point3 :=
  m.gridFz (closestIdx m.nFz m.gridFz g.src_a)

/-- Mask (over z-faces) of the wire in the borehole of
`VerticalElectricDipole`: x strictly within half a minimum x-cell width of
the closest face's x, z in `[src_a.z - hz/2, src_b.z + 1.5*hz)`, and, on
non-symmetric meshes, y strictly within half a minimum y-cell width of
`src_a.y`. -/
def VerticalElectricDipole.wire_in_borehole
    (m : Mesh) (g : CasingGeometry) (j : ℕ) : Bool :=
  let p := m.gridFz j
  let pa := VerticalElectricDipole.src_a_closest m g
  (decide (p.x < pa.x + m.hx_min / 2) && decide (pa.x - m.hx_min / 2 < p.x)) &&
  (decide (g.src_a.z - m.hz_min / 2 ≤ p.z) &&
   decide (p.z < g.src_b.z + 3 / 2 * m.hz_min)) &&
  (m.isSymmetric ||
   (decide (g.src_a.y - m.hy_min / 2 < p.y) &&
    decide (p.y < g.src_a.y + m.hy_min / 2)))

/-- The z-face array of `VerticalElectricDipole.s_e`
(`s_z[self.wire_in_borehole] = -1.`). -/
def VerticalElectricDipole.s_z (m : Mesh) (g : CasingGeometry) : ℕ → ℚ :=
  assign zerosF (VerticalElectricDipole.wire_in_borehole m g) (-1)

/-- Assembled current-density vector of `VerticalElectricDipole`. -/
def VerticalElectricDipole.s_e (m : Mesh) (g : CasingGeometry) : ℕ → ℚ :=
  fun i => hstack3 m.nFx m.nFy
    zerosF zerosF (VerticalElectricDipole.s_z m g) i / m.area i

/-- Signed unit currents written by `VerticalElectricDipole.s_e`. -/
def VerticalElectricDipole.segmentSigns : List ℚ := [-1]

/-- Closest z-face to `src_a` (`DownHoleTerminatingSrc.src_a_closest`). -/
def DownHoleTerminatingSrc.src_a_closest (m : Mesh) (g : CasingGeometry) : Point3 :=
  m.gridFz (closestIdx m.nFz m.gridFz g.src_a)

/-- Closest z-face to `src_b` (`DownHoleTerminatingSrc.src_b_closest`). -/
def DownHoleTerminatingSrc.src_b_closest (m : Mesh) (g : CasingGeometry) : Point3 :=
  m.gridFz (closestIdx m.nFz m.gridFz g.src_b)

/-- Mask (over z-faces) of the wire in the borehole of
`DownHoleTerminatingSrc` (same box predicate as the vertical dipole's). -/
def DownHoleTerminatingSrc.wire_in_borehole
    (m : Mesh) (g : CasingGeometry) (j : ℕ) : Bool :=
  let p := m.gridFz j
  let pa := DownHoleTerminatingSrc.src_a_closest m g
  (decide (p.x < pa.x + m.hx_min / 2) && decide (pa.x - m.hx_min / 2 < p.x)) &&
  (decide (g.src_a.z - m.hz_min / 2 ≤ p.z) &&
   decide (p.z < g.src_b.z + 3 / 2 * m.hz_min)) &&
  (m.isSymmetric ||
   (decide (g.src_a.y - m.hy_min / 2 < p.y) &&
    decide (p.y < g.src_a.y + m.hy_min / 2)))

/-- The z-band of the surface wire of `DownHoleTerminatingSrc`
(the local `surface_wirez` expression:
`(gridFx[:, 2] > hz.min()) & (gridFx[:, 2] <= 1.75 * hz.min())`).
It takes no geometry argument: the band is a fixed absolute range in mesh
coordinates. -/
def DownHoleTerminatingSrc.surface_wirez (m : Mesh) (p : Point3) : Bool :=
  decide (m.hz_min < p.z) && decide (p.z ≤ 7 / 4 * m.hz_min)

/-- Mask (over x-faces) of the surface wire of `DownHoleTerminatingSrc`:
x between the closest-face x-coordinates of the two endpoints inclusive,
z in the fixed band `(hz_min, 1.75*hz_min]`, and, on non-symmetric meshes,
y within half a minimum y-cell width of `src_b.y`. -/
def DownHoleTerminatingSrc.surface_wire
    (m : Mesh) (g : CasingGeometry) (j : ℕ) : Bool :=
  let p := m.gridFx j
  let pa := DownHoleTerminatingSrc.src_a_closest m g
  let pb := DownHoleTerminatingSrc.src_b_closest m g
  (decide (p.x ≤ max pa.x pb.x) && decide (min pa.x pb.x ≤ p.x)) &&
  DownHoleTerminatingSrc.surface_wirez m p &&
  (m.isSymmetric ||
   (decide (g.src_b.y - m.hy_min / 2 < p.y) &&
    decide (p.y < g.src_b.y + m.hy_min / 2)))

/-- Mask (over z-faces) of the surface return electrode of
`DownHoleTerminatingSrc`: x strictly within half a minimum x-cell width of
the closest face's x to `src_b`, z in `[src_b.z - hz, src_b.z + 1.75*hz)`,
and, on non-symmetric meshes, a half-cell y-band around `src_b.y`. -/
def DownHoleTerminatingSrc.surface_electrode
    (m : Mesh) (g : CasingGeometry) (j : ℕ) : Bool :=
  let p := m.gridFz j
  let pb := DownHoleTerminatingSrc.src_b_closest m g
  (decide (pb.x - m.hx_min / 2 < p.x) && decide (p.x < pb.x + m.hx_min / 2)) &&
  (decide (g.src_b.z - m.hz_min ≤ p.z) &&
   decide (p.z < g.src_b.z + 7 / 4 * m.hz_min)) &&
  (m.isSymmetric ||
   (decide (g.src_b.y - m.hy_min / 2 < p.y) &&
    decide (p.y < g.src_b.y + m.hy_min / 2)))

/-- The x-face array of `DownHoleTerminatingSrc.s_e`
(`s_x[self.surface_wire] = self.surface_wire_direction`). -/
def DownHoleTerminatingSrc.s_x (m : Mesh) (g : CasingGeometry) : ℕ → ℚ :=
  assign zerosF (DownHoleTerminatingSrc.surface_wire m g)
    (DownHoleTerminatingSrc.surface_wire_direction g)

/-- The z-face array of `DownHoleTerminatingSrc.s_e`
(`s_z[self.wire_in_borehole] = -1.` then `s_z[self.surface_electrode] = 1.`;
the later assignment overwrites the earlier one on overlap). -/
def DownHoleTerminatingSrc.s_z (m : Mesh) (g : CasingGeometry) : ℕ → ℚ :=
  assign (assign zerosF (DownHoleTerminatingSrc.wire_in_borehole m g) (-1))
    (DownHoleTerminatingSrc.surface_electrode m g) 1

/-- Assembled current-density vector of `DownHoleTerminatingSrc`. -/
def DownHoleTerminatingSrc.s_e (m : Mesh) (g : CasingGeometry) : ℕ → ℚ :=
  fun i => hstack3 m.nFx m.nFy
    (DownHoleTerminatingSrc.s_x m g) zerosF (DownHoleTerminatingSrc.s_z m g) i
    / m.area i

/-- Signed unit currents written by `DownHoleTerminatingSrc.s_e`, in
assignment order: borehole wire, surface wire, surface electrode. -/
def DownHoleTerminatingSrc.segmentSigns (g : CasingGeometry) : List ℚ :=
  [-1, DownHoleTerminatingSrc.surface_wire_direction g, 1]

/-- Lazy-cache state of a source instance: presence of the `_srcList`
attribute and of the `_s_e` attribute. -/
structure SrcCache where
  srcList : Option Unit
  s_e_cache : Option (ℕ → ℚ)

/-- The stateful `s_e` property of `DownHoleTerminatingSrc`
(also inherited verbatim in guard structure by `DownHoleCasingSrc` and
`TopCasingSrc`): `if getattr(self, '_srcList', None) is None:` compute the
vector and store it in `self._s_e`; otherwise return `self._s_e` (reading
the attribute; the default models the read when it was never stored).
Note the guard tests `_srcList`, which this property never sets. -/
def DownHoleTerminatingSrc.s_e_guarded (m : Mesh) (g : CasingGeometry)
    (st : SrcCache) : SrcCache × (ℕ → ℚ) :=
  match st.srcList with
  | none =>
      ({ st with s_e_cache := some (DownHoleTerminatingSrc.s_e m g) },
       DownHoleTerminatingSrc.s_e m g)
  | some _ => (st, st.s_e_cache.getD (fun _ => 0))

/-- Mask (over x-faces) of the downhole electrode of `DownHoleCasingSrc`:
x at most the casing radius, z in `(src_a.z - hz, src_a.z]`, and, on
non-symmetric meshes, a half-cell y-band around `src_a.y`. -/
def DownHoleCasingSrc.downhole_electrode
    (m : Mesh) (g : CasingGeometry) (j : ℕ) : Bool :=
  let p := m.gridFx j
  decide (p.x ≤ g.casing_a) &&
  (decide (p.z ≤ g.src_a.z) && decide (g.src_a.z - m.hz_min < p.z)) &&
  (m.isSymmetric ||
   (decide (g.src_a.y - m.hy_min / 2 < p.y) &&
    decide (p.y < g.src_a.y + m.hy_min / 2)))

/-- The x-face array of `DownHoleCasingSrc.s_e`
(`s_x[self.downhole_electrode] = 1.` then `s_x[self.surface_wire] = -1.`). -/
def DownHoleCasingSrc.s_x (m : Mesh) (g : CasingGeometry) : ℕ → ℚ :=
  assign (assign zerosF (DownHoleCasingSrc.downhole_electrode m g) 1)
    (DownHoleTerminatingSrc.surface_wire m g) (-1)

/-- The z-face array of `DownHoleCasingSrc.s_e`
(`s_z[self.wire_in_borehole] = -1.` then `s_z[self.surface_electrode] = 1.`,
with both masks inherited from `DownHoleTerminatingSrc`). -/
def DownHoleCasingSrc.s_z (m : Mesh) (g : CasingGeometry) : ℕ → ℚ :=
  assign (assign zerosF (DownHoleTerminatingSrc.wire_in_borehole m g) (-1))
    (DownHoleTerminatingSrc.surface_electrode m g) 1

/-- Assembled current-density vector of `DownHoleCasingSrc`. -/
def DownHoleCasingSrc.s_e (m : Mesh) (g : CasingGeometry) : ℕ → ℚ :=
  fun i => hstack3 m.nFx m.nFy
    (DownHoleCasingSrc.s_x m g) zerosF (DownHoleCasingSrc.s_z m g) i
    / m.area i

/-- Signed unit currents written by `DownHoleCasingSrc.s_e`, in assignment
order: borehole wire, downhole electrode, surface wire, surface
electrode. -/
def DownHoleCasingSrc.segmentSigns : List ℚ := [-1, 1, -1, 1]

/-- Number of distinct values of the projection `proj` over the faces of a
grid selected by `mask` (`len(np.unique(grid[mask, k]))`). -/
def numUniqueCoords (n : ℕ) (grid : ℕ → Point3) (mask : ℕ → Bool)
    (proj : Point3 → ℚ) : ℕ :=
  ((((List.range n).filter fun i => mask i).map fun i => proj (grid i)).dedup).length

/-- The `_check_wire_more` validator of `DownHoleCasingSrc` (a
`properties.validator` hook, run when `validate()` is called on the
instance): asserts in order that the downhole electrode's selected faces
have exactly one y-location and exactly one z-location, raising an
`AssertionError` with the corresponding message otherwise. -/
def DownHoleCasingSrc.checkWireMore (m : Mesh) (g : CasingGeometry) :
    Except String Unit :=
  if numUniqueCoords m.nFx m.gridFx (DownHoleCasingSrc.downhole_electrode m g)
      (fun p => p.y) = 1 then
    if numUniqueCoords m.nFx m.gridFx (DownHoleCasingSrc.downhole_electrode m g)
        (fun p => p.z) = 1 then
      Except.ok ()
    else Except.error "the downhole electrode has more than one z-location"
  else Except.error "the downhole electrode has more than one y-location"

/-- Mask (over z-faces) of the tophole electrode of `TopCasingSrc`:
x in the half-open band `(casing_a, casing_a + hx_min]`, z in
`[src_a.z - hz/2, src_a.z + 1.5*hz)`, and, on non-symmetric meshes, a
full-cell y-band around `src_a.y`. -/
def TopCasingSrc.tophole_electrode
    (m : Mesh) (g : CasingGeometry) (j : ℕ) : Bool :=
  let p := m.gridFz j
  (decide (p.x ≤ g.casing_a + m.hx_min) && decide (g.casing_a < p.x)) &&
  (decide (p.z < g.src_a.z + 3 / 2 * m.hz_min) &&
   decide (g.src_a.z - m.hz_min / 2 ≤ p.z)) &&
  (m.isSymmetric ||
   (decide (g.src_a.y - m.hy_min < p.y) &&
    decide (p.y < g.src_a.y + m.hy_min)))

/-- Mask (over x-faces) of the surface wire of `TopCasingSrc`: x between
just outside the casing radius and the closest-face x of `src_b`, z in
`(src_b.z + hz, src_b.z + 1.75*hz]`, and, on non-symmetric meshes, a
half-cell y-band around `src_b.y`. -/
def TopCasingSrc.surface_wire
    (m : Mesh) (g : CasingGeometry) (j : ℕ) : Bool :=
  let p := m.gridFx j
  let pb := DownHoleTerminatingSrc.src_b_closest m g
  (decide (p.x ≤ pb.x) && decide (g.casing_a + m.hx_min / 2 < p.x)) &&
  (decide (g.src_b.z + m.hz_min < p.z) &&
   decide (p.z ≤ g.src_b.z + 7 / 4 * m.hz_min)) &&
  (m.isSymmetric ||
   (decide (p.y < g.src_b.y + m.hy_min / 2) &&
    decide (g.src_b.y - m.hy_min / 2 < p.y)))

/-- The x-face array of `TopCasingSrc.s_e`
(`s_x[self.surface_wire] = -1.`). -/
def TopCasingSrc.s_x (m : Mesh) (g : CasingGeometry) : ℕ → ℚ :=
  assign zerosF (TopCasingSrc.surface_wire m g) (-1)

/-- The z-face array of `TopCasingSrc.s_e`
(`s_z[self.tophole_electrode] = -1.` then `s_z[self.surface_electrode] = 1.`,
the surface electrode being inherited from `DownHoleTerminatingSrc`). -/
def TopCasingSrc.s_z (m : Mesh) (g : CasingGeometry) : ℕ → ℚ :=
  assign (assign zerosF (TopCasingSrc.tophole_electrode m g) (-1))
    (DownHoleTerminatingSrc.surface_electrode m g) 1

/-- Assembled current-density vector of `TopCasingSrc`. -/
def TopCasingSrc.s_e (m : Mesh) (g : CasingGeometry) : ℕ → ℚ :=
  fun i => hstack3 m.nFx m.nFy
    (TopCasingSrc.s_x m g) zerosF (TopCasingSrc.s_z m g) i / m.area i

/-- Signed unit currents written by `TopCasingSrc.s_e`, in assignment
order: tophole electrode, surface wire, surface electrode. -/
def TopCasingSrc.segmentSigns : List ℚ := [-1, -1, 1]

/-- Union of the segment masks of `HorizontalElectricDipole` as indices of
the assembled vector, following the spec's partition (x block first). -/
def HorizontalElectricDipole.unionMaskSpec
    (m : Mesh) (g : CasingGeometry) (i : ℕ) : Bool :=
  decide (i < m.nFx) && HorizontalElectricDipole.surface_wire m g i

/-- The signed unit current assigned last to assembled index `i` by
`HorizontalElectricDipole`, as described by the spec. -/
def HorizontalElectricDipole.lastSignSpec
    (_m : Mesh) (g : CasingGeometry) (_i : ℕ) : ℚ :=
  HorizontalElectricDipole.surface_wire_direction g

/-- Union of the segment masks of `VerticalElectricDipole` as indices of
the assembled vector (z block only). -/
def VerticalElectricDipole.unionMaskSpec
    (m : Mesh) (g : CasingGeometry) (i : ℕ) : Bool :=
  decide (m.nFx + m.nFy ≤ i) &&
    VerticalElectricDipole.wire_in_borehole m g (i - m.nFx - m.nFy)

/-- The signed unit current assigned last to assembled index `i` by
`VerticalElectricDipole`, as described by the spec. -/
def VerticalElectricDipole.lastSignSpec
    (_m : Mesh) (_g : CasingGeometry) (_i : ℕ) : ℚ := -1

/-- Union of the segment masks of `DownHoleTerminatingSrc` as indices of
the assembled vector. -/
def DownHoleTerminatingSrc.unionMaskSpec
    (m : Mesh) (g : CasingGeometry) (i : ℕ) : Bool :=
  (decide (i < m.nFx) && DownHoleTerminatingSrc.surface_wire m g i) ||
  (decide (m.nFx + m.nFy ≤ i) &&
    (DownHoleTerminatingSrc.wire_in_borehole m g (i - m.nFx - m.nFy) ||
     DownHoleTerminatingSrc.surface_electrode m g (i - m.nFx - m.nFy)))

/-- The signed unit current assigned last to assembled index `i` by
`DownHoleTerminatingSrc`: the surface-wire direction on the x block, and on
the z block `+1` where the surface electrode (assigned last) selects,
`-1` otherwise. -/
def DownHoleTerminatingSrc.lastSignSpec
    (m : Mesh) (g : CasingGeometry) (i : ℕ) : ℚ :=
  if i < m.nFx then DownHoleTerminatingSrc.surface_wire_direction g
  else if DownHoleTerminatingSrc.surface_electrode m g (i - m.nFx - m.nFy)
  then 1 else -1

/-- Union of the segment masks of `DownHoleCasingSrc` as indices of the
assembled vector. -/
def DownHoleCasingSrc.unionMaskSpec
    (m : Mesh) (g : CasingGeometry) (i : ℕ) : Bool :=
  (decide (i < m.nFx) &&
    (DownHoleCasingSrc.downhole_electrode m g i ||
     DownHoleTerminatingSrc.surface_wire m g i)) ||
  (decide (m.nFx + m.nFy ≤ i) &&
    (DownHoleTerminatingSrc.wire_in_borehole m g (i - m.nFx - m.nFy) ||
     DownHoleTerminatingSrc.surface_electrode m g (i - m.nFx - m.nFy)))

/-- The signed unit current assigned last to assembled index `i` by
`DownHoleCasingSrc`: on the x block `-1` where the surface wire (assigned
last) selects and `+1` otherwise; on the z block `+1` where the surface
electrode selects and `-1` otherwise. -/
def DownHoleCasingSrc.lastSignSpec
    (m : Mesh) (g : CasingGeometry) (i : ℕ) : ℚ :=
  if i < m.nFx then
    (if DownHoleTerminatingSrc.surface_wire m g i then -1 else 1)
  else if DownHoleTerminatingSrc.surface_electrode m g (i - m.nFx - m.nFy)
  then 1 else -1

/-- Union of the segment masks of `TopCasingSrc` as indices of the
assembled vector. -/
def TopCasingSrc.unionMaskSpec
    (m : Mesh) (g : CasingGeometry) (i : ℕ) : Bool :=
  (decide (i < m.nFx) && TopCasingSrc.surface_wire m g i) ||
  (decide (m.nFx + m.nFy ≤ i) &&
    (TopCasingSrc.tophole_electrode m g (i - m.nFx - m.nFy) ||
     DownHoleTerminatingSrc.surface_electrode m g (i - m.nFx - m.nFy)))

/-- The signed unit current assigned last to assembled index `i` by
`TopCasingSrc`: `-1` on the x block; on the z block `+1` where the surface
electrode selects and `-1` otherwise. -/
def TopCasingSrc.lastSignSpec
    (m : Mesh) (g : CasingGeometry) (i : ℕ) : ℚ :=
  if i < m.nFx then -1
  else if DownHoleTerminatingSrc.surface_electrode m g (i - m.nFx - m.nFy)
  then 1 else -1

/-- A one-face-per-axis symmetric mesh used to instantiate theorems with
hypotheses at concrete inputs. -/
def m1 : Mesh :=
  { nFx := 1, nFy := 1, nFz := 1,
    gridFx := fun _ => ⟨5, 0, 0⟩,
    gridFy := fun _ => ⟨0, 0, 0⟩,
    gridFz := fun _ => ⟨0, 0, 0⟩,
    hx_min := 1, hy_min := 1, hz_min := 1,
    area := fun _ => 1, isSymmetric := true }

/-- Electrode endpoints `(0,0,0)` and `(10,0,0)` with casing radius 1. -/
def g1 : CasingGeometry := ⟨⟨0, 0, 0⟩, ⟨10, 0, 0⟩, 1⟩

/-- A non-symmetric mesh whose two x-faces both fall in the downhole
casing-contact band of `g3` but carry two distinct y-coordinates. -/
def m3 : Mesh :=
  { nFx := 2, nFy := 0, nFz := 1,
    gridFx := fun j => if j = 0 then ⟨1/2, 0, 0⟩ else ⟨1/2, 1/2, 0⟩,
    gridFy := fun _ => ⟨0, 0, 0⟩,
    gridFz := fun _ => ⟨0, 0, 0⟩,
    hx_min := 1, hy_min := 2, hz_min := 1,
    area := fun _ => 1, isSymmetric := false }

/-- Electrode endpoints `(0,0,0)` and `(2,0,2)` with casing radius
`casing_a = 1`. -/
def g3 : CasingGeometry := ⟨⟨0, 0, 0⟩, ⟨2, 0, 2⟩, 1⟩

/-- Endpoints sharing the same x-coordinate (an exactly-vertical pair). -/
def g9 : CasingGeometry := ⟨⟨0, 0, 0⟩, ⟨0, 0, -10⟩, 1⟩

/-- C1 counterexample: the claim asserts that every topology's segment
signs sum to zero, but `VerticalElectricDipole` writes a single `-1`, so
its sum is `-1`, not zero. -/
theorem c1_counterexample_ved_sum_nonzero :
    VerticalElectricDipole.segmentSigns.sum ≠ 0 := by
  norm_num [VerticalElectricDipole.segmentSigns]

/-- C1 (amended): only `DownHoleCasingSrc`'s segment signs sum to zero
(`(-1) + 1 + (-1) + 1 = 0`); `VerticalElectricDipole` sums to `-1`,
`TopCasingSrc` to `-1`, and `HorizontalElectricDipole` and
`DownHoleTerminatingSrc` sum to their surface-wire direction, which is
`±1` and never zero. -/
theorem c1_segment_sign_sums :
    DownHoleCasingSrc.segmentSigns.sum = 0 ∧
    VerticalElectricDipole.segmentSigns.sum = -1 ∧
    TopCasingSrc.segmentSigns.sum = -1 ∧
    (∀ g : CasingGeometry,
      (HorizontalElectricDipole.segmentSigns g).sum =
        HorizontalElectricDipole.surface_wire_direction g ∧
      (HorizontalElectricDipole.segmentSigns g).sum ≠ 0) ∧
    (∀ g : CasingGeometry,
      (DownHoleTerminatingSrc.segmentSigns g).sum =
        DownHoleTerminatingSrc.surface_wire_direction g ∧
      (DownHoleTerminatingSrc.segmentSigns g).sum ≠ 0) := by
  refine ⟨by norm_num [DownHoleCasingSrc.segmentSigns],
    by norm_num [VerticalElectricDipole.segmentSigns],
    by norm_num [TopCasingSrc.segmentSigns], ?_, ?_⟩ <;> intro g <;>
    simp only [HorizontalElectricDipole.segmentSigns,
      DownHoleTerminatingSrc.segmentSigns,
      HorizontalElectricDipole.surface_wire_direction,
      DownHoleTerminatingSrc.surface_wire_direction, List.sum_cons,
      List.sum_nil] <;>
    split_ifs <;> norm_num

/-- C3 counterexample: on the concrete instance `m3`, `g3`
(`casing_a = 1`) the downhole casing-contact mask selects two faces with
distinct y-coordinates, yet `s_e` still assembles and returns the
normalized vector `[1, 1, -1]` instead of raising: computing `s_e` does
not run the transverse-coordinate validation. -/
theorem c3_counterexample_s_e_assembles_despite_two_y :
    (m3.gridFx 0).y ≠ (m3.gridFx 1).y ∧
    DownHoleCasingSrc.downhole_electrode m3 g3 0 = true ∧
    DownHoleCasingSrc.downhole_electrode m3 g3 1 = true ∧
    (List.range 3).map (DownHoleCasingSrc.s_e m3 g3) = [1, 1, -1] := by
  norm_num [m3, g3, DownHoleCasingSrc.s_e, DownHoleCasingSrc.s_x,
    DownHoleCasingSrc.s_z, DownHoleCasingSrc.downhole_electrode,
    DownHoleTerminatingSrc.surface_wire, DownHoleTerminatingSrc.surface_wirez,
    DownHoleTerminatingSrc.wire_in_borehole,
    DownHoleTerminatingSrc.surface_electrode,
    DownHoleTerminatingSrc.src_a_closest, DownHoleTerminatingSrc.src_b_closest,
    closestIdx, sqDist, assign, zerosF, hstack3, List.range_succ,
    max_self, min_self]

/-- C3 (amended): when the downhole casing-contact mask spans two distinct
y-face-coordinates, the `properties` validator `_check_wire_more` — which
runs when `validate()` is invoked, not from `s_e()` — fails its
y-uniqueness assertion naming the downhole electrode and the y axis,
while `s_e()` itself performs no such validation and returns the assembled
vector. -/
theorem c3_validator_fails_but_s_e_returns :
    DownHoleCasingSrc.checkWireMore m3 g3 =
      Except.error "the downhole electrode has more than one y-location" ∧
    DownHoleCasingSrc.s_e m3 g3 0 = 1 ∧
    DownHoleCasingSrc.s_e m3 g3 1 = 1 ∧
    DownHoleCasingSrc.s_e m3 g3 2 = -1 := by
  refine ⟨?_, ?_, ?_, ?_⟩ <;>
    norm_num [m3, g3, DownHoleCasingSrc.checkWireMore, numUniqueCoords,
      DownHoleCasingSrc.s_e, DownHoleCasingSrc.s_x, DownHoleCasingSrc.s_z,
      DownHoleCasingSrc.downhole_electrode,
      DownHoleTerminatingSrc.surface_wire, DownHoleTerminatingSrc.surface_wirez,
      DownHoleTerminatingSrc.wire_in_borehole,
      DownHoleTerminatingSrc.surface_electrode,
      DownHoleTerminatingSrc.src_a_closest,
      DownHoleTerminatingSrc.src_b_closest, closestIdx, sqDist, assign,
      zerosF, hstack3, List.range_succ, List.dedup_cons_of_not_mem,
      max_self, min_self]

/-- C4: constructing a `VerticalElectricDipole` raises
`NameError: name cp is not defined` on every input — for the well-formed
vertical pair `(0,0,0)`, `(0,0,-10)` just as for the horizontally
misaligned pair `(0,0,0)`, `(5,5,0)` — because the constructor's assert
reads the bare, never-bound name `cp` before anything else runs. -/
theorem c4_ved_construction_raises_name_error :
    VerticalElectricDipole.init ⟨⟨0, 0, 0⟩, ⟨0, 0, -10⟩, 1⟩ =
      Except.error (PyExc.nameError "cp") ∧
    VerticalElectricDipole.init ⟨⟨0, 0, 0⟩, ⟨5, 5, 0⟩, 1⟩ =
      Except.error (PyExc.nameError "cp") := by
  constructor <;> rfl

/-- C5: the value `HorizontalElectricDipole.s_e` writes into the
surface-wire entries of the x-face array is `-1` when
`src_a.x < src_b.x` and `+1` otherwise (entries outside the mask stay 0);
in particular for `src_a = (0,0,0)`, `src_b = (10,0,0)` the assigned sign
is `-1`. -/
theorem c5_hed_surface_wire_sign :
    (∀ (m : Mesh) (g : CasingGeometry) (j : ℕ),
      HorizontalElectricDipole.s_x m g j =
        if HorizontalElectricDipole.surface_wire m g j then
          (if g.src_a.x < g.src_b.x then -1 else 1)
        else 0) ∧
    HorizontalElectricDipole.surface_wire_direction ⟨⟨0, 0, 0⟩, ⟨10, 0, 0⟩, 1⟩
      = -1 := by
  refine ⟨fun m g j => rfl, by decide⟩

/-- C8: for `DownHoleTerminatingSrc` (and its subclasses, which reuse the
same guard) the `s_e` cache guard tests the `_srcList` attribute, which
`s_e` never sets: after a first call from a fresh instance the guard is
still unset, so a second call recomputes the vector from scratch — it
returns a value equal to the first (the computation is deterministic) but
ignores the stored `_s_e` cache, even one holding an arbitrary vector
`w`. -/
theorem c8_dht_cache_guard_never_set (m : Mesh) (g : CasingGeometry)
    (w : ℕ → ℚ) :
    ((DownHoleTerminatingSrc.s_e_guarded m g ⟨none, none⟩).1.srcList = none) ∧
    ((DownHoleTerminatingSrc.s_e_guarded m g
        ((DownHoleTerminatingSrc.s_e_guarded m g ⟨none, none⟩).1)).2 =
      DownHoleTerminatingSrc.s_e m g) ∧
    ((DownHoleTerminatingSrc.s_e_guarded m g ⟨none, some w⟩).2 =
      DownHoleTerminatingSrc.s_e m g) ∧
    ((DownHoleTerminatingSrc.s_e_guarded m g
        ((DownHoleTerminatingSrc.s_e_guarded m g ⟨none, none⟩).1)).2 =
      (DownHoleTerminatingSrc.s_e_guarded m g ⟨none, none⟩).2) :=
  ⟨rfl, rfl, rfl, rfl⟩

/-- C9: when `src_a.x = src_b.x` the strict-inequality branch is not
taken, so both `HorizontalElectricDipole` and `DownHoleTerminatingSrc`
report a surface-wire direction of `+1` (no error is raised). -/
theorem c9_equal_x_gives_positive_direction (g : CasingGeometry)
    (h : g.src_a.x = g.src_b.x) :
    HorizontalElectricDipole.surface_wire_direction g = 1 ∧
    DownHoleTerminatingSrc.surface_wire_direction g = 1 := by
  unfold HorizontalElectricDipole.surface_wire_direction
    DownHoleTerminatingSrc.surface_wire_direction
  rw [h]
  simp

/-- Witness for C9 at the exactly-vertical endpoint pair `g9`. -/
theorem c9_witness :
    g9.src_a.x = g9.src_b.x ∧
    (HorizontalElectricDipole.surface_wire_direction g9 = 1 ∧
     DownHoleTerminatingSrc.surface_wire_direction g9 = 1) :=
  ⟨rfl, c9_equal_x_gives_positive_direction g9 rfl⟩

/-- C6: the tophole-electrode mask of `TopCasingSrc` selects exactly the
z-faces whose x-coordinate lies in the half-open band
`(casing_a, casing_a + hx_min]`, intersected with the segment's z-band
`[src_a.z - hz_min/2, src_a.z + 1.5*hz_min)` and, on non-symmetric meshes,
the full-cell y-band around `src_a.y` (with `casing_a = 0.5` and
`hx_min = 0.2` the band is exactly `(0.5, 0.7]`). -/
theorem c6_tophole_electrode_band (m : Mesh) (g : CasingGeometry) (j : ℕ) :
    TopCasingSrc.tophole_electrode m g j = true ↔
      (g.casing_a < (m.gridFz j).x ∧
       (m.gridFz j).x ≤ g.casing_a + m.hx_min) ∧
      (g.src_a.z - m.hz_min / 2 ≤ (m.gridFz j).z ∧
       (m.gridFz j).z < g.src_a.z + 3 / 2 * m.hz_min) ∧
      (m.isSymmetric = true ∨
       (g.src_a.y - m.hy_min < (m.gridFz j).y ∧
        (m.gridFz j).y < g.src_a.y + m.hy_min)) := by
  simp only [TopCasingSrc.tophole_electrode, Bool.and_eq_true,
    Bool.or_eq_true, decide_eq_true_eq]
  tauto

/-- C7: for both `VerticalElectricDipole` and `DownHoleTerminatingSrc` the
wire-in-borehole mask selects exactly the z-faces whose z-coordinate lies
in `[src_a.z - 0.5*hz_min, src_b.z + 1.5*hz_min)` and whose x-coordinate
lies strictly within half a minimum x-cell width of the x-coordinate of
the face nearest `src_a`, conjoined with a half-`hy_min` y-band around
`src_a.y` when the mesh is not symmetric. -/
theorem c7_wire_in_borehole_box :
    (∀ (m : Mesh) (g : CasingGeometry) (j : ℕ),
      VerticalElectricDipole.wire_in_borehole m g j = true ↔
        ((VerticalElectricDipole.src_a_closest m g).x - m.hx_min / 2 <
            (m.gridFz j).x ∧
         (m.gridFz j).x <
            (VerticalElectricDipole.src_a_closest m g).x + m.hx_min / 2) ∧
        (g.src_a.z - m.hz_min / 2 ≤ (m.gridFz j).z ∧
         (m.gridFz j).z < g.src_b.z + 3 / 2 * m.hz_min) ∧
        (m.isSymmetric = true ∨
         (g.src_a.y - m.hy_min / 2 < (m.gridFz j).y ∧
          (m.gridFz j).y < g.src_a.y + m.hy_min / 2))) ∧
    (∀ (m : Mesh) (g : CasingGeometry) (j : ℕ),
      DownHoleTerminatingSrc.wire_in_borehole m g j = true ↔
        ((DownHoleTerminatingSrc.src_a_closest m g).x - m.hx_min / 2 <
            (m.gridFz j).x ∧
         (m.gridFz j).x <
            (DownHoleTerminatingSrc.src_a_closest m g).x + m.hx_min / 2) ∧
        (g.src_a.z - m.hz_min / 2 ≤ (m.gridFz j).z ∧
         (m.gridFz j).z < g.src_b.z + 3 / 2 * m.hz_min) ∧
        (m.isSymmetric = true ∨
         (g.src_a.y - m.hy_min / 2 < (m.gridFz j).y ∧
          (m.gridFz j).y < g.src_a.y + m.hy_min / 2))) := by
  constructor <;> intro m g j
  · simp only [VerticalElectricDipole.wire_in_borehole, Bool.and_eq_true,
      Bool.or_eq_true, decide_eq_true_eq]
    tauto
  · simp only [DownHoleTerminatingSrc.wire_in_borehole, Bool.and_eq_true,
      Bool.or_eq_true, decide_eq_true_eq]
    tauto

/-- C10: the z-band of the surface wire of `DownHoleTerminatingSrc` (used
unchanged by `DownHoleCasingSrc`, whose `s_x` assigns through
`DownHoleTerminatingSrc.surface_wire`) is the fixed absolute range
`(hz_min, 1.75*hz_min]` in mesh coordinates — `surface_wirez` takes no
geometry argument at all — so the full mask is the x- and y-conditions
conjoined with that fixed band, independent of `src_a.z` and `src_b.z`. -/
theorem c10_surface_wire_fixed_z_band :
    (∀ (m : Mesh) (p : Point3),
      DownHoleTerminatingSrc.surface_wirez m p = true ↔
        m.hz_min < p.z ∧ p.z ≤ 7 / 4 * m.hz_min) ∧
    (∀ (m : Mesh) (g : CasingGeometry) (j : ℕ),
      DownHoleTerminatingSrc.surface_wire m g j = true ↔
        (min (DownHoleTerminatingSrc.src_a_closest m g).x
            (DownHoleTerminatingSrc.src_b_closest m g).x ≤ (m.gridFx j).x ∧
         (m.gridFx j).x ≤ max (DownHoleTerminatingSrc.src_a_closest m g).x
            (DownHoleTerminatingSrc.src_b_closest m g).x) ∧
        (m.hz_min < (m.gridFx j).z ∧ (m.gridFx j).z ≤ 7 / 4 * m.hz_min) ∧
        (m.isSymmetric = true ∨
         (g.src_b.y - m.hy_min / 2 < (m.gridFx j).y ∧
          (m.gridFx j).y < g.src_b.y + m.hy_min / 2))) := by
  constructor
  · intro m p
    simp [DownHoleTerminatingSrc.surface_wirez]
  · intro m g j
    simp only [DownHoleTerminatingSrc.surface_wire,
      DownHoleTerminatingSrc.surface_wirez, Bool.and_eq_true,
      Bool.or_eq_true, decide_eq_true_eq]
    tauto

/-- C2: for every source variant, every entry of the assembled vector
`s_e` (length `nFx + nFy + nFz`, partitioned in x, y, z order) outside the
union of the variant's segment masks is exactly zero, and every entry
inside the union equals the signed unit current assigned last to that
index divided by the face area at that index. -/
theorem c2_support_and_normalization :
    (∀ (m : Mesh) (g : CasingGeometry) (i : ℕ), i < numF m →
      (HorizontalElectricDipole.unionMaskSpec m g i = false →
        HorizontalElectricDipole.s_e m g i = 0) ∧
      (HorizontalElectricDipole.unionMaskSpec m g i = true →
        HorizontalElectricDipole.s_e m g i =
          HorizontalElectricDipole.lastSignSpec m g i / m.area i)) ∧
    (∀ (m : Mesh) (g : CasingGeometry) (i : ℕ), i < numF m →
      (VerticalElectricDipole.unionMaskSpec m g i = false →
        VerticalElectricDipole.s_e m g i = 0) ∧
      (VerticalElectricDipole.unionMaskSpec m g i = true →
        VerticalElectricDipole.s_e m g i =
          VerticalElectricDipole.lastSignSpec m g i / m.area i)) ∧
    (∀ (m : Mesh) (g : CasingGeometry) (i : ℕ), i < numF m →
      (DownHoleTerminatingSrc.unionMaskSpec m g i = false →
        DownHoleTerminatingSrc.s_e m g i = 0) ∧
      (DownHoleTerminatingSrc.unionMaskSpec m g i = true →
        DownHoleTerminatingSrc.s_e m g i =
          DownHoleTerminatingSrc.lastSignSpec m g i / m.area i)) ∧
    (∀ (m : Mesh) (g : CasingGeometry) (i : ℕ), i < numF m →
      (DownHoleCasingSrc.unionMaskSpec m g i = false →
        DownHoleCasingSrc.s_e m g i = 0) ∧
      (DownHoleCasingSrc.unionMaskSpec m g i = true →
        DownHoleCasingSrc.s_e m g i =
          DownHoleCasingSrc.lastSignSpec m g i / m.area i)) ∧
    (∀ (m : Mesh) (g : CasingGeometry) (i : ℕ), i < numF m →
      (TopCasingSrc.unionMaskSpec m g i = false →
        TopCasingSrc.s_e m g i = 0) ∧
      (TopCasingSrc.unionMaskSpec m g i = true →
        TopCasingSrc.s_e m g i =
          TopCasingSrc.lastSignSpec m g i / m.area i)) := by
  refine ⟨?_, ?_, ?_, ?_, ?_⟩
  · intro m g i _hi
    by_cases h1 : i < m.nFx
    · cases hsw : HorizontalElectricDipole.surface_wire m g i <;>
        simp [HorizontalElectricDipole.s_e, HorizontalElectricDipole.s_x,
          HorizontalElectricDipole.unionMaskSpec,
          HorizontalElectricDipole.lastSignSpec, hstack3, assign, zerosF,
          h1, hsw, zero_div]
    · by_cases h2 : i < m.nFx + m.nFy <;>
        simp [HorizontalElectricDipole.s_e,
          HorizontalElectricDipole.unionMaskSpec, hstack3, zerosF, h1, h2,
          zero_div]
  · intro m g i _hi
    by_cases h1 : i < m.nFx
    · have h3 : ¬ (m.nFx + m.nFy ≤ i) := by omega
      simp [VerticalElectricDipole.s_e, VerticalElectricDipole.unionMaskSpec,
        hstack3, zerosF, h1, h3, zero_div]
    · by_cases h2 : i < m.nFx + m.nFy
      · have h3 : ¬ (m.nFx + m.nFy ≤ i) := by omega
        simp [VerticalElectricDipole.s_e,
          VerticalElectricDipole.unionMaskSpec, hstack3, zerosF, h1, h2, h3,
          zero_div]
      · have h3 : m.nFx + m.nFy ≤ i := by omega
        cases hwib :
            VerticalElectricDipole.wire_in_borehole m g (i - m.nFx - m.nFy) <;>
          simp [VerticalElectricDipole.s_e, VerticalElectricDipole.s_z,
            VerticalElectricDipole.unionMaskSpec,
            VerticalElectricDipole.lastSignSpec, hstack3, assign, zerosF,
            h1, h2, h3, hwib, zero_div]
  · intro m g i _hi
    by_cases h1 : i < m.nFx
    · have h3 : ¬ (m.nFx + m.nFy ≤ i) := by omega
      cases hsw : DownHoleTerminatingSrc.surface_wire m g i <;>
        simp [DownHoleTerminatingSrc.s_e, DownHoleTerminatingSrc.s_x,
          DownHoleTerminatingSrc.unionMaskSpec,
          DownHoleTerminatingSrc.lastSignSpec, hstack3, assign, zerosF,
          h1, h3, hsw, zero_div]
    · by_cases h2 : i < m.nFx + m.nFy
      · have h3 : ¬ (m.nFx + m.nFy ≤ i) := by omega
        simp [DownHoleTerminatingSrc.s_e,
          DownHoleTerminatingSrc.unionMaskSpec, hstack3, zerosF, h1, h2, h3,
          zero_div]
      · have h3 : m.nFx + m.nFy ≤ i := by omega
        cases hwib :
            DownHoleTerminatingSrc.wire_in_borehole m g (i - m.nFx - m.nFy) <;>
        cases hse :
            DownHoleTerminatingSrc.surface_electrode m g (i - m.nFx - m.nFy) <;>
          simp [DownHoleTerminatingSrc.s_e, DownHoleTerminatingSrc.s_z,
            DownHoleTerminatingSrc.unionMaskSpec,
            DownHoleTerminatingSrc.lastSignSpec, hstack3, assign, zerosF,
            h1, h2, h3, hwib, hse, zero_div]
  · intro m g i _hi
    by_cases h1 : i < m.nFx
    · have h3 : ¬ (m.nFx + m.nFy ≤ i) := by omega
      cases hsw : DownHoleTerminatingSrc.surface_wire m g i <;>
      cases hdhe : DownHoleCasingSrc.downhole_electrode m g i <;>
        simp [DownHoleCasingSrc.s_e, DownHoleCasingSrc.s_x,
          DownHoleCasingSrc.unionMaskSpec, DownHoleCasingSrc.lastSignSpec,
          hstack3, assign, zerosF, h1, h3, hsw, hdhe, zero_div]
    · by_cases h2 : i < m.nFx + m.nFy
      · have h3 : ¬ (m.nFx + m.nFy ≤ i) := by omega
        simp [DownHoleCasingSrc.s_e, DownHoleCasingSrc.unionMaskSpec,
          hstack3, zerosF, h1, h2, h3, zero_div]
      · have h3 : m.nFx + m.nFy ≤ i := by omega
        cases hwib :
            DownHoleTerminatingSrc.wire_in_borehole m g (i - m.nFx - m.nFy) <;>
        cases hse :
            DownHoleTerminatingSrc.surface_electrode m g (i - m.nFx - m.nFy) <;>
          simp [DownHoleCasingSrc.s_e, DownHoleCasingSrc.s_z,
            DownHoleCasingSrc.unionMaskSpec, DownHoleCasingSrc.lastSignSpec,
            hstack3, assign, zerosF, h1, h2, h3, hwib, hse, zero_div]
  · intro m g i _hi
    by_cases h1 : i < m.nFx
    · have h3 : ¬ (m.nFx + m.nFy ≤ i) := by omega
      cases hsw : TopCasingSrc.surface_wire m g i <;>
        simp [TopCasingSrc.s_e, TopCasingSrc.s_x,
          TopCasingSrc.unionMaskSpec, TopCasingSrc.lastSignSpec, hstack3,
          assign, zerosF, h1, h3, hsw, zero_div]
    · by_cases h2 : i < m.nFx + m.nFy
      · have h3 : ¬ (m.nFx + m.nFy ≤ i) := by omega
        simp [TopCasingSrc.s_e, TopCasingSrc.unionMaskSpec, hstack3, zerosF,
          h1, h2, h3, zero_div]
      · have h3 : m.nFx + m.nFy ≤ i := by omega
        cases htop :
            TopCasingSrc.tophole_electrode m g (i - m.nFx - m.nFy) <;>
        cases hse :
            DownHoleTerminatingSrc.surface_electrode m g (i - m.nFx - m.nFy) <;>
          simp [TopCasingSrc.s_e, TopCasingSrc.s_z,
            TopCasingSrc.unionMaskSpec, TopCasingSrc.lastSignSpec, hstack3,
            assign, zerosF, h1, h2, h3, htop, hse, zero_div]

/-- Witness for C2: the `HorizontalElectricDipole` conjunct instantiated at
the concrete mesh `m1`, geometry `g1` and index `0 < numF m1`. -/
theorem c2_witness :
    0 < numF m1 ∧
    ((HorizontalElectricDipole.unionMaskSpec m1 g1 0 = false →
        HorizontalElectricDipole.s_e m1 g1 0 = 0) ∧
     (HorizontalElectricDipole.unionMaskSpec m1 g1 0 = true →
        HorizontalElectricDipole.s_e m1 g1 0 =
          HorizontalElectricDipole.lastSignSpec m1 g1 0 / m1.area 0)) :=
  ⟨by norm_num [numF, m1],
   c2_support_and_normalization.1 m1 g1 0 (by norm_num [numF, m1])⟩
